import Mathlib

/-!
# Verification of the PopForm aggregation engine

This file gives a shallow embedding, in Lean 4, of the aggregation engine of
the PopForm repository (`app.py` together with `backend_filter_apply.py` and
`frontend_bracket_utils.py`), and proves or refutes the specification claims
about it.

Conventions of the embedding:

* A pandas `DataFrame` of input records is a `List Row`; a missing (NaN)
  county is `Option.none`.
* Machine floats used for percentages are modelled by `ℚ`.  `Series.round(1)`
  is modelled by `round1` (round to the nearest tenth; the exact-tie case,
  which numpy resolves to even, is resolved upward here — no statement in this
  file depends on a tie).
* Python dicts are association lists or total functions, as noted at each use.
-/

namespace PopForm

/-- Rounding to one decimal place, modelling `Series.round(1)` /
`np.round(x, 1)`: scale by ten, round to the nearest integer, divide by ten. -/
def round1 (x : ℚ) : ℚ := (⌊x * 10 + 1 / 2⌋ : ℤ) / 10

/-! ## Region classifier (`app.py` lines 34–43 and 206–214)

The four region sets are transcribed from the literals `COOK_SET`,
`COLLAR_SET`, `URBAN_SET`, `RURAL_SET` in `app.py`. -/

def COOK_SET : List ℤ := [31]

def COLLAR_SET : List ℤ := [43, 89, 97, 125, 197]

def URBAN_SET : List ℤ :=
  [201, 125, 97, 39, 89, 43, 31, 93, 197, 91, 143, 179, 127, 19, 183, 165, 109, 113, 173]

def RURAL_SET : List ℤ :=
  [1, 3, 5, 7, 9, 11, 13, 15, 17, 21, 23, 25, 27, 29, 33, 35, 37, 41, 45, 47, 49, 51, 53,
   55, 57, 59, 61, 63, 65, 67, 69, 71, 73, 75, 77, 79, 81, 83, 85, 87, 95, 99, 101, 103,
   105, 107, 111, 115, 117, 119, 121, 123, 129, 131, 133, 135, 137, 139, 141, 145, 147,
   149, 151, 153, 155, 157, 159, 161, 163, 167, 169, 171, 175, 177, 181, 185, 187, 189,
   191, 193, 195, 199, 203]

/-- `_code_to_region` from `app.py` (lines 206–214): check the four fixed sets
in order Cook, Collar, Urban, Rural; a code in none of them is
`"Unknown Region"`; a missing (`None`) county code yields a `None` region. -/
def code_to_region (code : Option ℤ) : Option String :=
  match code with
  | none => none
  | some c =>
    if c ∈ COOK_SET then some "Cook County"
    else if c ∈ COLLAR_SET then some "Collar Counties"
    else if c ∈ URBAN_SET then some "Urban Counties"
    else if c ∈ RURAL_SET then some "Rural Counties"
    else some "Unknown Region"

/-! ## Bracket resolver (`app.py` lines 51–54, 166–178, 228–259;
`frontend_bracket_utils.py`)

`CODE_TO_BRACKET` in `app.py` stores the canonical bracket of each age code
as a string (`"0-4"`, …, `"80-84"`, `"80+"`).  `combine_codes_to_label` parses
each such string into a pair (low bound, high bound), with `"A+"` parsed as
(A, 999).  We embed the parsed table directly. -/

def CODE_TO_BRACKET : ℕ → Option (ℕ × ℕ)
  | 1 => some (0, 4)
  | 2 => some (5, 9)
  | 3 => some (10, 14)
  | 4 => some (15, 19)
  | 5 => some (20, 24)
  | 6 => some (25, 29)
  | 7 => some (30, 34)
  | 8 => some (35, 39)
  | 9 => some (40, 44)
  | 10 => some (45, 49)
  | 11 => some (50, 54)
  | 12 => some (55, 59)
  | 13 => some (60, 64)
  | 14 => some (65, 69)
  | 15 => some (70, 74)
  | 16 => some (75, 79)
  | 17 => some (80, 84)
  | 18 => some (80, 999)
  | _ => none

/-- `combine_codes_to_label` from `app.py` (lines 166–178): sort the distinct
codes, collect the low/high bounds of the canonical brackets covering them,
and render lowest-low `-` highest-high, with a `+` suffix when an open-ended
bracket (high 999) is covered.  If no covered code has a known bracket, fall
back to joining the raw codes with hyphens; an empty code list gives `""`. -/
def combine_codes_to_label (codes : List ℕ) : String :=
  let cs := codes.dedup.insertionSort (· ≤ ·)
  if cs = [] then ""
  else
    let lows := cs.filterMap (fun c => (CODE_TO_BRACKET c).map (·.1))
    let highs := cs.filterMap (fun c => (CODE_TO_BRACKET c).map (·.2))
    match lows.min?, highs.max? with
    | some lo, some hi =>
        if 999 ≤ hi then toString lo ++ "+" else toString lo ++ "-" ++ toString hi
    | _, _ => "-".intercalate (cs.map toString)

/-- The custom-ranges branch of `attach_agegroup_column` (`app.py` lines
232–243), expressed per row: each range `(mn, mx)` is clamped to `[1, 18]`,
skipped if empty after clamping, and otherwise assigns the merged label of the
covered codes to every row whose `Age` lies in the range; later ranges
overwrite earlier ones, and a row covered by no range gets `"Other Ages"`. -/
def customAgeGroup (ranges : List (ℕ × ℕ)) (age : ℕ) : String :=
  (ranges.foldl
    (fun acc r =>
      let mni := max 1 r.1
      let mxi := min 18 r.2
      if mxi < mni then acc
      else if mni ≤ age ∧ age ≤ mxi then
        some (combine_codes_to_label (List.range' mni (mxi + 1 - mni)))
      else acc)
    none).getD "Other Ages"

/-- The fixed lookup table `BRACKET_MAP` of
`frontend_bracket_utils.parse_implicit_bracket`: a recognised expression is
either a single age code (`Sum.inl`) or a code range (`Sum.inr`). -/
def BRACKET_MAP : String → Option (ℕ ⊕ ℕ × ℕ)
  | "0-4" => some (.inl 1)
  | "5-9" => some (.inl 2)
  | "10-14" => some (.inl 3)
  | "15-19" => some (.inl 4)
  | "20-24" => some (.inl 5)
  | "25-29" => some (.inl 6)
  | "30-34" => some (.inl 7)
  | "35-39" => some (.inl 8)
  | "40-44" => some (.inl 9)
  | "45-49" => some (.inl 10)
  | "50-54" => some (.inl 11)
  | "55-59" => some (.inl 12)
  | "60-64" => some (.inl 13)
  | "65-69" => some (.inl 14)
  | "70-74" => some (.inl 15)
  | "75-79" => some (.inl 16)
  | "80-84" => some (.inl 17)
  | "80+" => some (.inl 18)
  | "20-64" => some (.inr (5, 13))
  | "65+" => some (.inr (14, 18))
  | "0-19" => some (.inr (1, 4))
  | "20+" => some (.inr (5, 18))
  | _ => none

/-- `parse_implicit_bracket` from `frontend_bracket_utils.py`, expressed per
row as a predicate on the `Age` code: first the fixed `BRACKET_MAP` lookup,
then the structural `"A+"` / `"A-B"` fallbacks, and `false` for anything
unparseable. -/
def implicitMatch (expr0 : String) (age : ℕ) : Bool :=
  let expr := expr0.trim
  match BRACKET_MAP expr with
  | some (.inl v) => age == v
  | some (.inr r) => decide (r.1 ≤ age) && decide (age ≤ r.2)
  | none =>
    if expr.endsWith "+" then
      match (expr.dropRight 1).toNat? with
      | some st => decide (st ≤ age)
      | none => false
    else
      match expr.splitOn "-" with
      | a :: b :: _ =>
        match a.toNat?, b.toNat? with
        | some mn, some mx => decide (mn ≤ age) && decide (age ≤ mx)
        | _, _ => false
      | _ => false

/-- The named-bracket branch of `attach_agegroup_column` (`app.py` lines
244–258), per row: each expression of the definition assigns its own literal
text as the label to the rows it matches, in order (later expressions
overwrite), and unmatched rows get `"Other Ages"`. -/
def implicitLabel (exprs : List String) (age : ℕ) : String :=
  (exprs.foldl (fun acc e => if implicitMatch e age then some e else acc) none).getD
    "Other Ages"

/-- `attach_agegroup_column` (`app.py` lines 228–259) restricted to one row,
for the case `include_age = True` (when `Age` is a requested dimension): a
non-empty custom-range list takes precedence, then a named bracket definition
(`agegroup_map_implicit` is modelled as the total function `imap`, with `[]`
for missing names as in `dict.get(name, [])`), else the constant
`"All Ages"`.  Every row always receives exactly one label. -/
def attachAgeGroup (backend : Option String) (imap : String → List String)
    (ranges : List (ℕ × ℕ)) (age : ℕ) : String :=
  if ranges ≠ [] then customAgeGroup ranges age
  else
    match backend with
    | some nm => implicitLabel (imap nm) age
    | none => "All Ages"

/-! ## Data model of the grouping aggregator (`aggregate_multi`, `app.py`
lines 264–338)

An input record (one row of `df_source`) carries the columns used by the
aggregator: `County` (an integer code, possibly missing/NaN), `Age` (code
1–18), `Race`, `Ethnicity`, `Sex` (strings) and `Count` (a non-negative
integer). -/

structure Row where
  county : Option ℤ
  age : ℕ
  race : String
  ethnicity : String
  sex : String
  count : ℕ
deriving DecidableEq

/-- A value of one grouping column: a string, an integer, or pandas NaN/null
(a missing value, which `groupby(..., dropna=False)` keeps as its own
group). -/
inductive Cell where
  | str (s : String)
  | int (n : ℤ)
  | null
deriving DecidableEq

/-- The group key of a row: the tuple of values of the active grouping
columns.  A component is `none` exactly when the corresponding dimension is
not requested (the column is not among the `groupby` fields).  `county` holds
the `County` code column (renamed `County Code` in the output), `ageGroup`
the derived `AgeGroup` column and `region` the derived `Region` column. -/
structure GKey where
  county : Option Cell
  region : Option Cell
  ageGroup : Option Cell
  race : Option Cell
  ethnicity : Option Cell
  sex : Option Cell
deriving DecidableEq

/-- One output row of `aggregate_multi`: the county label column (present
exactly when `County` is not a requested dimension), the group key, the
summed `Count`, the `Year` stamp and the computed `Percent`. -/
structure OutRow where
  countyLabel : Option String
  key : GKey
  count : ℕ
  year : String
  percent : ℚ
deriving DecidableEq

/-- The `County` cell of a row (`Cell.null` models NaN). -/
def countyCell (c : Option ℤ) : Cell :=
  match c with
  | some v => .int v
  | none => .null

/-- The derived `Region` cell of a row: `attach_region_column` applies
`_code_to_region` to the row's county code (`app.py` lines 216–226; an
unresolvable county yields a null region). -/
def regionCell (c : Option ℤ) : Cell :=
  match code_to_region c with
  | some s => .str s
  | none => .null

/-- The group key of one input row, given the cleaned grouping variables
`gv`: the `group_fields` loop of `aggregate_multi` (lines 291–296) maps
`Age ↦ AgeGroup`, keeps `County`, `Region`, `Race`, `Ethnicity`, `Sex`, and
the groupby key is the tuple of those columns' values for the row. -/
def keyOf (gv : List String) (backend : Option String) (imap : String → List String)
    (ranges : List (ℕ × ℕ)) (r : Row) : GKey where
  county := if gv.contains "County" then some (countyCell r.county) else none
  region := if gv.contains "Region" then some (regionCell r.county) else none
  ageGroup :=
    if gv.contains "Age" then some (.str (attachAgeGroup backend imap ranges r.age))
    else none
  race := if gv.contains "Race" then some (.str r.race) else none
  ethnicity := if gv.contains "Ethnicity" then some (.str r.ethnicity) else none
  sex := if gv.contains "Sex" then some (.str r.sex) else none

/-- `df.groupby(group_fields, dropna=False)["Count"].sum()` (line 298): one
entry per distinct key, carrying the sum of `Count` over the rows with that
key. -/
def groupedCounts (rows : List Row) (keyf : Row → GKey) : List (GKey × ℕ) :=
  ((rows.map keyf).dedup).map fun k =>
    (k, ((rows.filter fun r => decide (keyf r = k)).map (·.count)).sum)

/-- The inverse of `RACE_DISPLAY_TO_CODE` (`app.py` lines 45–49), used at
lines 301–303 to relabel race codes with display names; unmapped values are
kept (`fillna`). -/
def raceDisplayOfCode (s : String) : String :=
  match s with
  | "TOM" => "Two or More Races"
  | "AIAN" => "American Indian and Alaska Native"
  | "Black" => "Black or African American"
  | "White" => "White"
  | "NHOPI" => "Native Hawaiian and Other Pacific Islander"
  | "Asian" => "Asian"
  | _ => s

/-- Race-label normalisation applied to a group key (`app.py` lines
301–303): only the `Race` component changes. -/
def relabelRaceG (k : GKey) : GKey :=
  { k with
    race := k.race.map fun c =>
      match c with
      | .str s => .str (raceDisplayOfCode s)
      | c => c }

/-- The denominator key of a grouped row (lines 311–314): `Year` together
with `County Code`, `Region` and `AgeGroup` — each present exactly when the
corresponding dimension was requested, which coincides with the component
being `some`.  `Year` is the same literal `str(year_str)` on every row of one
`aggregate_multi` call, so it is carried separately on `OutRow`.  `Race`,
`Ethnicity` and `Sex` never appear here. -/
def selDenomK (k : GKey) : Option Cell × Option Cell × Option Cell :=
  (k.county, k.region, k.ageGroup)

/-- The denominator of one grouped row (line 317): the sum of `Count` over
the grouped rows sharing its denominator key. -/
def denOf (grouped : List (GKey × ℕ)) (g : GKey × ℕ) : ℕ :=
  ((grouped.filter fun g2 => decide (selDenomK g2.1 = selDenomK g.1)).map (·.2)).sum

/-- The percent of one grouped row (line 318):
`np.where(den > 0, (Count/den*100).round(1), 0.0)`. -/
def percentOf (grouped : List (GKey × ℕ)) (g : GKey × ℕ) : ℚ :=
  if 0 < denOf grouped g then round1 ((g.2 : ℚ) / (denOf grouped g : ℚ) * 100) else 0

/-- Assembling one output row from a grouped row. -/
def mkOut (lbl : Option String) (ys : String) (grouped : List (GKey × ℕ))
    (g : GKey × ℕ) : OutRow :=
  ⟨lbl, g.1, g.2, ys, percentOf grouped g⟩

/-- Attach `Year` and `Percent` to every grouped row. -/
def withPercent (lbl : Option String) (ys : String) (grouped : List (GKey × ℕ)) :
    List OutRow :=
  grouped.map (mkOut lbl ys grouped)

/-- Reverse lookup in the county name→code map (`id_to_name` of
`ensure_county_names`, `app.py` lines 180–193).  The map is assumed
injective, as the spec guarantees (bidirectional, unique). -/
def idToName (cmap : List (String × ℤ)) (code : ℤ) : Option String :=
  (cmap.find? fun p => decide (p.2 = code)).map (·.1)

/-- The `County` label column treatment of `ensure_county_names` for a
string-valued label: a label that is a digit string whose code is in the map
is replaced by the county name; anything else is kept. -/
def mapCountyLabel (cmap : List (String × ℤ)) (v : String) : String :=
  match v.toNat? with
  | some n => (idToName cmap (n : ℤ)).getD v
  | none => v

/-- The columns of the `_empty()` result (`app.py` lines 269–272): a
`County` label column when `County` is not requested, then the requested
dimensions in request order (`Age ↦ AgeGroup`), then `Count`, `Percent`,
`Year`. -/
def emptyCols (gv : List String) : List String :=
  (if gv.contains "County" then [] else ["County"]) ++
    gv.map (fun g => if g = "Age" then "AgeGroup" else g) ++ ["Count", "Percent", "Year"]

/-- The output column order of a non-empty `aggregate_multi` run (`app.py`
lines 322–338): the county identity columns (`County Code`/`County Name`
when `County` was grouped, else the inserted `County` label), then
`Region`, `AgeGroup`, `Race`, `Ethnicity`, `Sex` — in that fixed order,
those that were grouped — then `Count`, `Percent`, `Year`, then any
remaining grouping columns. -/
def nonEmptyCols (gv : List String) : List String :=
  let gfields := gv.map (fun g => if g = "Age" then "AgeGroup" else g)
  let base := if gv.contains "County" then ["County Code", "County Name"] else ["County"]
  let mid := ["Region", "AgeGroup", "Race", "Ethnicity", "Sex"].filter
    fun c => gfields.contains c
  let rest := gfields.filter fun c =>
    ¬c = "County" ∧ ¬(["Region", "AgeGroup", "Race", "Ethnicity", "Sex"].contains c)
  base ++ mid ++ ["Count", "Percent", "Year"] ++ rest

/-- The result of `aggregate_multi`: the display column list and the output
rows. -/
structure AggResult where
  cols : List String
  rows : List OutRow
deriving DecidableEq

/-- `aggregate_multi` from `app.py` (lines 264–338).  `grouping_vars` is
cleaned of the sentinel `"All"`; an empty or zero-total input yields the
empty, `_empty()`-shaped table; an empty cleaned dimension list yields the
single totals row (`Count` = total, `Percent` = 100.0); otherwise the rows
are grouped on the resolved dimension columns, race codes are relabelled,
and `Percent` is computed against the denominator key partition.  The dead
`else` branch of line 319–320 (grand-total denominator) is unreachable in
the source because `denom_keys` always contains `Year`, and is omitted.
`counties_map` is `cmap`; `agegroup_map_implicit` is the total function
`imap`. -/
def aggregate_multi (rows : List Row) (grouping_vars : List String)
    (year_str county_label : String) (cmap : List (String × ℤ))
    (backend : Option String) (ranges : List (ℕ × ℕ))
    (imap : String → List String) : AggResult :=
  let gv := grouping_vars.filter fun g => decide (g ≠ "All")
  if rows = [] then ⟨emptyCols gv, []⟩
  else if (rows.map (·.count)).sum = 0 then ⟨emptyCols gv, []⟩
  else if gv = [] then
    ⟨["County", "Count", "Percent", "Year"],
      [⟨some (mapCountyLabel cmap county_label), ⟨none, none, none, none, none, none⟩,
        (rows.map (·.count)).sum, year_str, 100⟩]⟩
  else
    let grouped := groupedCounts rows (keyOf gv backend imap ranges)
    let groupedR := grouped.map fun g => (relabelRaceG g.1, g.2)
    let lbl :=
      if gv.contains "County" then none else some (mapCountyLabel cmap county_label)
    ⟨nonEmptyCols gv, withPercent lbl year_str groupedR⟩

/-! ## General list and rounding lemmas -/

lemma filter_of_map {α β : Type} (l : List α) (f : α → β) (p : β → Bool) :
    (l.map f).filter p = (l.filter fun a => p (f a)).map f := by
  induction l with
  | nil => rfl
  | cons a t ih => cases h : p (f a) <;> simp [List.filter_cons, h, ih]

lemma sum_map_add {κ : Type} (ks : List κ) (g h : κ → ℕ) :
    (ks.map fun k => g k + h k).sum = (ks.map g).sum + (ks.map h).sum := by
  induction ks with
  | nil => rfl
  | cons a t ih => simp only [List.map_cons, List.sum_cons, ih]; omega

lemma sum_map_ite_eq {κ : Type} [DecidableEq κ] (ks : List κ) (x : κ) (v : ℕ)
    (hnd : ks.Nodup) (hx : x ∈ ks) :
    (ks.map fun k => if x = k then v else 0).sum = v := by
  induction ks with
  | nil => cases hx
  | cons a t ih =>
    rcases List.mem_cons.mp hx with rfl | h
    · rw [List.map_cons, List.sum_cons, if_pos rfl]
      have hxt : x ∉ t := (List.nodup_cons.mp hnd).1
      have h0 : (t.map fun k => if x = k then v else 0).sum = 0 := by
        apply List.sum_eq_zero
        intro y hy
        rcases List.mem_map.mp hy with ⟨k, hk, rfl⟩
        exact if_neg fun e => hxt (by rw [e]; exact hk)
      omega
    · have hxa : ¬x = a :=
        fun e => (List.nodup_cons.mp hnd).1 (by rw [← e]; exact h)
      rw [List.map_cons, List.sum_cons, if_neg hxa,
        ih (List.nodup_cons.mp hnd).2 h]
      omega

lemma sum_fibers {α κ : Type} [DecidableEq κ] (l : List α) (f : α → κ) (cnt : α → ℕ)
    (ks : List κ) (hnd : ks.Nodup) (hmem : ∀ a ∈ l, f a ∈ ks) :
    (ks.map fun k => ((l.filter fun a => decide (f a = k)).map cnt).sum).sum
      = (l.map cnt).sum := by
  induction l with
  | nil => simp
  | cons a t ih =>
    have step : ∀ k, (((a :: t).filter fun a2 => decide (f a2 = k)).map cnt).sum
        = (if f a = k then cnt a else 0)
          + ((t.filter fun a2 => decide (f a2 = k)).map cnt).sum := by
      intro k
      by_cases h : f a = k <;> simp [List.filter_cons, h]
    rw [List.map_congr_left fun k _ => step k, sum_map_add,
      sum_map_ite_eq ks (f a) (cnt a) hnd (hmem a (List.mem_cons_self a t)),
      ih fun b hb => hmem b (List.mem_cons_of_mem a hb)]
    simp

lemma sum_map_cast_mul (l : List ℕ) (q : ℚ) :
    (l.map fun c : ℕ => (c : ℚ) * q).sum = ((l.sum : ℕ) : ℚ) * q := by
  induction l with
  | nil => simp
  | cons a t ih =>
    simp only [List.map_cons, List.sum_cons, ih]
    push_cast
    ring

lemma abs_round1_sub_le (x : ℚ) : |round1 x - x| ≤ 1 / 20 := by
  have h1 : ((⌊x * 10 + 1 / 2⌋ : ℤ) : ℚ) ≤ x * 10 + 1 / 2 := Int.floor_le _
  have h2 : x * 10 + 1 / 2 < ((⌊x * 10 + 1 / 2⌋ : ℤ) : ℚ) + 1 := Int.lt_floor_add_one _
  rw [round1, abs_le]
  constructor <;> linarith

lemma abs_sum_round1_sub_le (l : List ℚ) :
    |(l.map round1).sum - l.sum| ≤ (l.length : ℚ) * (1 / 20) := by
  induction l with
  | nil => simp
  | cons a t ih =>
    have h := abs_round1_sub_le a
    have hre : ((a :: t).map round1).sum - (a :: t).sum
        = (round1 a - a) + ((t.map round1).sum - t.sum) := by
      simp only [List.map_cons, List.sum_cons]
      ring
    rw [hre]
    calc |(round1 a - a) + ((t.map round1).sum - t.sum)|
        ≤ |round1 a - a| + |(t.map round1).sum - t.sum| := abs_add _ _
      _ ≤ 1 / 20 + (t.length : ℚ) * (1 / 20) := by linarith
      _ = ((a :: t).length : ℚ) * (1 / 20) := by
          push_cast [List.length_cons]
          ring

lemma sum_round1_div_bound (cs : List ℕ) (D : ℕ) (hD : 0 < D) (hsum : cs.sum = D) :
    |(cs.map fun c : ℕ => round1 ((c : ℚ) / (D : ℚ) * 100)).sum - 100|
      ≤ (cs.length : ℚ) * (1 / 20) := by
  have hD0 : ((D : ℕ) : ℚ) ≠ 0 := Nat.cast_ne_zero.mpr hD.ne'
  have hps : (cs.map fun c : ℕ => (c : ℚ) / (D : ℚ) * 100).sum = 100 := by
    have h1 : (fun c : ℕ => (c : ℚ) / (D : ℚ) * 100)
        = fun c : ℕ => (c : ℚ) * (100 / (D : ℚ)) := by
      funext c
      ring
    rw [h1, sum_map_cast_mul, hsum]
    field_simp
  have h := abs_sum_round1_sub_le (cs.map fun c : ℕ => (c : ℚ) / (D : ℚ) * 100)
  rw [hps, List.map_map, List.length_map] at h
  exact h

/-! ## Claim C4: region classifier precedence -/

/-- C4: for every county code, `_code_to_region` checks the four fixed sets
in strict precedence order — a code in the Cook set is labelled
`"Cook County"` even if it also belongs to lower-tier sets, a non-Cook code
in the Collar set is labelled `"Collar Counties"`, and so on — so each code
receives exactly one region label; a code in none of the four sets maps to
`"Unknown Region"`, and a null county yields a null region. -/
theorem code_to_region_precedence (c : ℤ) :
    (c ∈ COOK_SET → code_to_region (some c) = some "Cook County")
    ∧ (c ∉ COOK_SET → c ∈ COLLAR_SET →
        code_to_region (some c) = some "Collar Counties")
    ∧ (c ∉ COOK_SET → c ∉ COLLAR_SET → c ∈ URBAN_SET →
        code_to_region (some c) = some "Urban Counties")
    ∧ (c ∉ COOK_SET → c ∉ COLLAR_SET → c ∉ URBAN_SET → c ∈ RURAL_SET →
        code_to_region (some c) = some "Rural Counties")
    ∧ (c ∉ COOK_SET → c ∉ COLLAR_SET → c ∉ URBAN_SET → c ∉ RURAL_SET →
        code_to_region (some c) = some "Unknown Region")
    ∧ (∃! lab : String, code_to_region (some c) = some lab)
    ∧ code_to_region none = none := by
  refine ⟨fun h1 => by simp [code_to_region, h1],
    fun h1 h2 => by simp [code_to_region, h1, h2],
    fun h1 h2 h3 => by simp [code_to_region, h1, h2, h3],
    fun h1 h2 h3 h4 => by simp [code_to_region, h1, h2, h3, h4],
    fun h1 h2 h3 h4 => by simp [code_to_region, h1, h2, h3, h4],
    ?_, rfl⟩
  by_cases h1 : c ∈ COOK_SET
  · exact ⟨"Cook County", by simp [code_to_region, h1],
      fun y hy => by simp [code_to_region, h1] at hy; exact hy.symm⟩
  by_cases h2 : c ∈ COLLAR_SET
  · exact ⟨"Collar Counties", by simp [code_to_region, h1, h2],
      fun y hy => by simp [code_to_region, h1, h2] at hy; exact hy.symm⟩
  by_cases h3 : c ∈ URBAN_SET
  · exact ⟨"Urban Counties", by simp [code_to_region, h1, h2, h3],
      fun y hy => by simp [code_to_region, h1, h2, h3] at hy; exact hy.symm⟩
  by_cases h4 : c ∈ RURAL_SET
  · exact ⟨"Rural Counties", by simp [code_to_region, h1, h2, h3, h4],
      fun y hy => by simp [code_to_region, h1, h2, h3, h4] at hy; exact hy.symm⟩
  · exact ⟨"Unknown Region", by simp [code_to_region, h1, h2, h3, h4],
      fun y hy => by simp [code_to_region, h1, h2, h3, h4] at hy; exact hy.symm⟩

/-- Witness for C4: the precedence theorem applied at one concrete code per
tier (note 31 and 43 also belong to the Urban set, yet keep their higher-tier
labels) and at a code (2) belonging to no set. -/
theorem code_to_region_precedence_witness :
    code_to_region (some 31) = some "Cook County"
    ∧ code_to_region (some 43) = some "Collar Counties"
    ∧ code_to_region (some 39) = some "Urban Counties"
    ∧ code_to_region (some 1) = some "Rural Counties"
    ∧ code_to_region (some 2) = some "Unknown Region" :=
  ⟨(code_to_region_precedence 31).1 (by decide),
    (code_to_region_precedence 43).2.1 (by decide) (by decide),
    (code_to_region_precedence 39).2.2.1 (by decide) (by decide) (by decide),
    (code_to_region_precedence 1).2.2.2.1 (by decide) (by decide) (by decide)
      (by decide),
    (code_to_region_precedence 2).2.2.2.2.1 (by decide) (by decide) (by decide)
      (by decide)⟩

/-! ## Claim C5: custom age ranges -/

/-- C5 counterexample: with custom ranges `[(1,5),(6,10)]` active, the bucket
assigned to age code 1 is `"0-24"` — the merge of the canonical brackets
0-4, 5-9, 10-14, 15-19, 20-24 of the covered codes 1–5 — and not `"0-9"` as
the claim states. -/
theorem customAgeGroup_label_counterexample :
    customAgeGroup [(1, 5), (6, 10)] 1 = "0-24" ∧ ("0-24" : String) ≠ "0-9" := by
  constructor <;> decide

/-- C5 (amended): with custom ranges `[(1,5),(6,10)]` active, every row with
age code in 1..5 gets the bucket `"0-24"` (merging the canonical brackets of
codes 1–5: lowest lower bound 0, highest upper bound 24), every row with code
in 6..10 gets `"25-49"` (merging the brackets of codes 6–10), and every row
with code in 11..18 gets the literal bucket `"Other Ages"`. -/
theorem customAgeGroup_ranges_1_5_6_10 (age : ℕ) (h1 : 1 ≤ age) (h2 : age ≤ 18) :
    customAgeGroup [(1, 5), (6, 10)] age =
      if age ≤ 5 then "0-24" else if age ≤ 10 then "25-49" else "Other Ages" := by
  interval_cases age <;> decide

/-- Witness for the amended C5 at age code 6. -/
theorem customAgeGroup_ranges_1_5_6_10_witness :
    customAgeGroup [(1, 5), (6, 10)] 6 =
      if 6 ≤ 5 then "0-24" else if 6 ≤ 10 then "25-49" else "Other Ages" :=
  customAgeGroup_ranges_1_5_6_10 6 (by decide) (by decide)

/-! ## Claim C3: count preservation -/

/-- C3: for every input record set and any choice of grouping dimensions, the
sum of `Count` over the rows returned by `aggregate_multi` equals the sum of
`Count` over the input records: grouping partitions the input (rows with
missing group values keep their own `null` group), so no input row is dropped
and none is counted twice; the degenerate branches return either the empty
table (when the input is empty or its total `Count` is zero, so both sides
are equal) or the single grand-total row. -/
theorem aggregate_multi_count_preservation (rows : List Row)
    (grouping_vars : List String) (ys cl : String) (cmap : List (String × ℤ))
    (backend : Option String) (ranges : List (ℕ × ℕ)) (imap : String → List String)
    (_hval : ∀ g ∈ grouping_vars,
      g ∈ (["All", "Age", "Race", "Ethnicity", "Sex", "County", "Region"] : List String)) :
    (((aggregate_multi rows grouping_vars ys cl cmap backend ranges imap).rows).map
        (·.count)).sum = (rows.map (·.count)).sum := by
  set gv := grouping_vars.filter fun g => decide (g ≠ "All") with hgv
  by_cases h0 : rows = []
  · subst h0
    have : (aggregate_multi [] grouping_vars ys cl cmap backend ranges imap).rows
        = [] := by
      simp only [aggregate_multi, ← hgv]
      simp
    rw [this]
    rfl
  by_cases h1 : (rows.map (·.count)).sum = 0
  · have : (aggregate_multi rows grouping_vars ys cl cmap backend ranges imap).rows
        = [] := by
      simp only [aggregate_multi, ← hgv]
      rw [if_neg h0, if_pos h1]
    rw [this, h1]
    rfl
  by_cases h2 : gv = []
  · have : (aggregate_multi rows grouping_vars ys cl cmap backend ranges imap).rows
        = [⟨some (mapCountyLabel cmap cl), ⟨none, none, none, none, none, none⟩,
            (rows.map (·.count)).sum, ys, 100⟩] := by
      simp only [aggregate_multi, ← hgv]
      rw [if_neg h0, if_neg h1, if_pos h2]
    rw [this]
    simp
  have hrows : (aggregate_multi rows grouping_vars ys cl cmap backend ranges imap).rows
      = withPercent
          (if gv.contains "County" then none else some (mapCountyLabel cmap cl)) ys
          ((groupedCounts rows (keyOf gv backend imap ranges)).map
            fun g => (relabelRaceG g.1, g.2)) := by
    simp only [aggregate_multi, ← hgv]
    rw [if_neg h0, if_neg h1, if_neg h2]
  rw [hrows]
  set keyf := keyOf gv backend imap ranges with hkeyf
  have e1 : ∀ (lbl : Option String) (G : List (GKey × ℕ)),
      (withPercent lbl ys G).map (·.count) = G.map (·.2) := by
    intro lbl G
    simp [withPercent, mkOut, List.map_map, Function.comp]
  rw [e1]
  have e2 : ((groupedCounts rows keyf).map fun g => (relabelRaceG g.1, g.2)).map (·.2)
      = (groupedCounts rows keyf).map (·.2) := by
    simp [List.map_map, Function.comp]
  rw [e2]
  unfold groupedCounts
  rw [List.map_map]
  exact sum_fibers rows keyf (·.count) _ (List.nodup_dedup _)
    fun a ha => List.mem_dedup.mpr (List.mem_map_of_mem keyf ha)

/-- Witness for C3 at a concrete two-record input grouped by `Race`. -/
theorem aggregate_multi_count_preservation_witness :
    (((aggregate_multi
          [⟨some 31, 1, "White", "Not Hispanic", "Male", 5⟩,
            ⟨some 31, 2, "Black", "Not Hispanic", "Female", 7⟩]
          ["Race"] "2020" "All Counties" [] none [] fun _ => []).rows).map
        (·.count)).sum
      = ((([⟨some 31, 1, "White", "Not Hispanic", "Male", 5⟩,
            ⟨some 31, 2, "Black", "Not Hispanic", "Female", 7⟩] : List Row)).map
          (·.count)).sum :=
  aggregate_multi_count_preservation _ _ _ _ _ _ _ _ (by decide)

/-! ## Claim C1: the percentage denominator policy -/

/-- The denominator partition of claim C1, stated from the spec's words: two
output rows share a denominator iff they agree on `Year`, agree on `County`
when `County` is a requested dimension, agree on `Region` when `Region` is
requested, and agree on `AgeBucket` when `Age` is requested.  `Race`,
`Ethnicity` and `Sex` never participate, even when they are requested
grouping dimensions. -/
def specAgreeP (gv : List String) (g1 g2 : OutRow) : Prop :=
  g1.year = g2.year
  ∧ (gv.contains "County" = true → g1.key.county = g2.key.county)
  ∧ (gv.contains "Region" = true → g1.key.region = g2.key.region)
  ∧ (gv.contains "Age" = true → g1.key.ageGroup = g2.key.ageGroup)

instance (gv : List String) (g1 g2 : OutRow) : Decidable (specAgreeP gv g1 g2) := by
  unfold specAgreeP
  infer_instance

/-- The spec-side denominator of claim C1 for an output row `g`: the sum of
`Count` over all output rows falling in the same denominator partition. -/
def specDen (gv : List String) (out : List OutRow) (g : OutRow) : ℕ :=
  ((out.filter fun g2 => decide (specAgreeP gv g g2)).map (·.count)).sum

/-- Keys produced by the grouping stage have a `some` component exactly for
the requested dimensions. -/
lemma groupedR_key_shape (rows : List Row) (gv : List String)
    (backend : Option String) (imap : String → List String)
    (ranges : List (ℕ × ℕ)) (p : GKey × ℕ)
    (hp : p ∈ (groupedCounts rows (keyOf gv backend imap ranges)).map
      fun g => (relabelRaceG g.1, g.2)) :
    (gv.contains "County" = false → p.1.county = none)
    ∧ (gv.contains "Region" = false → p.1.region = none)
    ∧ (gv.contains "Age" = false → p.1.ageGroup = none) := by
  obtain ⟨q, hq, rfl⟩ := List.mem_map.mp hp
  obtain ⟨k, hk, rfl⟩ := List.mem_map.mp hq
  obtain ⟨r, _hr, rfl⟩ := List.mem_map.mp (List.mem_dedup.mp hk)
  refine ⟨fun h => ?_, fun h => ?_, fun h => ?_⟩
  · have h2 : "County" ∉ gv := by simpa using h
    simp [relabelRaceG, keyOf, h2]
  · have h2 : "Region" ∉ gv := by simpa using h
    simp [relabelRaceG, keyOf, h2]
  · have h2 : "Age" ∉ gv := by simpa using h
    simp [relabelRaceG, keyOf, h2]

/-- On keys of the produced shape, the spec-side partition of C1 coincides
with the positional denominator key `selDenomK` used by the code. -/
lemma specAgreeP_iff_selDenom (gv : List String) (lbl : Option String) (ys : String)
    (G : List (GKey × ℕ)) (g1 g2 : GKey × ℕ)
    (h1c : gv.contains "County" = false → g1.1.county = none)
    (h2c : gv.contains "County" = false → g2.1.county = none)
    (h1r : gv.contains "Region" = false → g1.1.region = none)
    (h2r : gv.contains "Region" = false → g2.1.region = none)
    (h1a : gv.contains "Age" = false → g1.1.ageGroup = none)
    (h2a : gv.contains "Age" = false → g2.1.ageGroup = none) :
    specAgreeP gv (mkOut lbl ys G g1) (mkOut lbl ys G g2)
      ↔ selDenomK g2.1 = selDenomK g1.1 := by
  constructor
  · rintro ⟨-, hc, hr, ha⟩
    have ec : g2.1.county = g1.1.county := by
      cases hcc : gv.contains "County"
      · rw [h1c hcc, h2c hcc]
      · exact (hc hcc).symm
    have er : g2.1.region = g1.1.region := by
      cases hrr : gv.contains "Region"
      · rw [h1r hrr, h2r hrr]
      · exact (hr hrr).symm
    have ea : g2.1.ageGroup = g1.1.ageGroup := by
      cases haa : gv.contains "Age"
      · rw [h1a haa, h2a haa]
      · exact (ha haa).symm
    simp [selDenomK, ec, er, ea]
  · intro h
    have ec : g2.1.county = g1.1.county := congrArg (fun p => p.1) h
    have er : g2.1.region = g1.1.region := congrArg (fun p => p.2.1) h
    have ea : g2.1.ageGroup = g1.1.ageGroup := congrArg (fun p => p.2.2) h
    exact ⟨rfl, fun _ => ec.symm, fun _ => er.symm, fun _ => ea.symm⟩

/-- C1: for every record set and every non-empty cleaned grouping-dimension
list, each output row's `Percent` equals its `Count` divided by the sum of
`Count` over all output rows sharing its denominator partition (`Year`, plus
`County`/`Region`/`AgeBucket` exactly when requested; never
`Race`/`Ethnicity`/`Sex`), times 100, rounded to one decimal; a zero
denominator yields `Percent` 0 rather than an error.  (The key-set always
contains `Year`, so the claim's empty-key-set fallback to the grand total is
vacuous; in the source it is the dead `else` branch of line 319.) -/
theorem aggregate_multi_percent_denominator (rows : List Row)
    (grouping_vars : List String) (ys cl : String) (cmap : List (String × ℤ))
    (backend : Option String) (ranges : List (ℕ × ℕ)) (imap : String → List String)
    (hne : grouping_vars.filter (fun g2 => decide (g2 ≠ "All")) ≠ [])
    (g : OutRow)
    (hg : g ∈ (aggregate_multi rows grouping_vars ys cl cmap backend ranges imap).rows) :
    g.percent =
      if 0 < specDen (grouping_vars.filter fun g2 => decide (g2 ≠ "All"))
          (aggregate_multi rows grouping_vars ys cl cmap backend ranges imap).rows g
      then
        round1 ((g.count : ℚ) /
          (specDen (grouping_vars.filter fun g2 => decide (g2 ≠ "All"))
            (aggregate_multi rows grouping_vars ys cl cmap backend ranges imap).rows g
            : ℚ) * 100)
      else 0 := by
  set gv := grouping_vars.filter fun g2 => decide (g2 ≠ "All") with hgv
  by_cases h0 : rows = []
  · exfalso
    have hnil : (aggregate_multi rows grouping_vars ys cl cmap backend ranges imap).rows
        = [] := by
      subst h0
      simp only [aggregate_multi, ← hgv]
      simp
    rw [hnil] at hg
    exact absurd hg (List.not_mem_nil g)
  by_cases h1 : (rows.map (·.count)).sum = 0
  · exfalso
    have hnil : (aggregate_multi rows grouping_vars ys cl cmap backend ranges imap).rows
        = [] := by
      simp only [aggregate_multi, ← hgv]
      rw [if_neg h0, if_pos h1]
    rw [hnil] at hg
    exact absurd hg (List.not_mem_nil g)
  have hrows : (aggregate_multi rows grouping_vars ys cl cmap backend ranges imap).rows
      = withPercent
          (if gv.contains "County" then none else some (mapCountyLabel cmap cl)) ys
          ((groupedCounts rows (keyOf gv backend imap ranges)).map
            fun g2 => (relabelRaceG g2.1, g2.2)) := by
    simp only [aggregate_multi, ← hgv]
    rw [if_neg h0, if_neg h1, if_neg hne]
  rw [hrows] at hg ⊢
  set lbl := if gv.contains "County" then none else some (mapCountyLabel cmap cl)
    with hlbl
  set gR := (groupedCounts rows (keyOf gv backend imap ranges)).map
    fun g2 => (relabelRaceG g2.1, g2.2) with hgR
  have hg2 : g ∈ gR.map (mkOut lbl ys gR) := hg
  obtain ⟨g0, hg0, rfl⟩ := List.mem_map.mp hg2
  have hden : specDen gv (withPercent lbl ys gR) (mkOut lbl ys gR g0) = denOf gR g0 := by
    unfold specDen
    have e0 : withPercent lbl ys gR = gR.map (mkOut lbl ys gR) := rfl
    rw [e0, filter_of_map]
    have epred : ∀ x ∈ gR,
        (decide (specAgreeP gv (mkOut lbl ys gR g0) (mkOut lbl ys gR x)))
          = decide (selDenomK x.1 = selDenomK g0.1) := by
      intro x hx
      apply decide_eq_decide.mpr
      obtain ⟨s0c, s0r, s0a⟩ := groupedR_key_shape rows gv backend imap ranges g0
        (hgR ▸ hg0)
      obtain ⟨sxc, sxr, sxa⟩ := groupedR_key_shape rows gv backend imap ranges x
        (hgR ▸ hx)
      exact specAgreeP_iff_selDenom gv lbl ys gR g0 x s0c sxc s0r sxr s0a sxa
    rw [List.filter_congr epred, List.map_map]
    rfl
  rw [hden]
  rfl

/-- Witness input for C1: a single record grouped by `Race`. -/
def c1Rows : List Row := [⟨some 31, 1, "White", "Not Hispanic", "Male", 5⟩]

/-- The single output row of the C1 witness run. -/
def c1Out : OutRow :=
  mkOut (some "All Counties") "2020"
    [(⟨none, none, none, some (.str "White"), none, none⟩, 5)]
    (⟨none, none, none, some (.str "White"), none, none⟩, 5)

/-- Witness for C1: the denominator theorem applied to the concrete one-row
run of `c1Rows` grouped by `Race`. -/
theorem aggregate_multi_percent_denominator_witness :
    c1Out.percent =
      if 0 < specDen ["Race"]
          (aggregate_multi c1Rows ["Race"] "2020" "All Counties" [] none []
            fun _ => []).rows c1Out
      then
        round1 ((c1Out.count : ℚ) /
          (specDen ["Race"]
            (aggregate_multi c1Rows ["Race"] "2020" "All Counties" [] none []
              fun _ => []).rows c1Out : ℚ) * 100)
      else 0 :=
  aggregate_multi_percent_denominator c1Rows ["Race"] "2020" "All Counties" []
    none [] (fun _ => []) (by decide) c1Out
    (List.mem_singleton.mpr (by with_unfolding_all rfl))

/-! ## Claim C2: partition sums of rounded percents -/

/-- One denominator partition of an output: the rows whose denominator key
equals `v`. -/
def denomPartition (out : List OutRow)
    (v : Option Cell × Option Cell × Option Cell) : List OutRow :=
  out.filter fun g => decide (selDenomK g.key = v)

/-- C2 (amended): within each denominator partition of `aggregate_multi`'s
output whose total `Count` is positive, the 1-decimal-rounded `Percent`
values sum to 100.0 with absolute error at most 0.05 per row of the
partition (each rounding moves a value by at most 0.05; the unrounded values
sum to exactly 100).  The claimed fixed bound 0.1 holds only for partitions
of at most two rows and fails in general (see the counterexample). -/
theorem aggregate_multi_percent_partition_sum (rows : List Row)
    (grouping_vars : List String) (ys cl : String) (cmap : List (String × ℤ))
    (backend : Option String) (ranges : List (ℕ × ℕ)) (imap : String → List String)
    (v : Option Cell × Option Cell × Option Cell)
    (hpos : 0 < ((denomPartition
        (aggregate_multi rows grouping_vars ys cl cmap backend ranges imap).rows
        v).map (·.count)).sum) :
    |((denomPartition
        (aggregate_multi rows grouping_vars ys cl cmap backend ranges imap).rows
        v).map (·.percent)).sum - 100|
      ≤ ((denomPartition
          (aggregate_multi rows grouping_vars ys cl cmap backend ranges imap).rows
          v).length : ℚ) * (1 / 20) := by
  set gv := grouping_vars.filter fun g2 => decide (g2 ≠ "All") with hgv
  by_cases h0 : rows = []
  · exfalso
    have hnil : (aggregate_multi rows grouping_vars ys cl cmap backend ranges imap).rows
        = [] := by
      subst h0
      simp only [aggregate_multi, ← hgv]
      simp
    rw [hnil] at hpos
    simp [denomPartition] at hpos
  by_cases h1 : (rows.map (·.count)).sum = 0
  · exfalso
    have hnil : (aggregate_multi rows grouping_vars ys cl cmap backend ranges imap).rows
        = [] := by
      simp only [aggregate_multi, ← hgv]
      rw [if_neg h0, if_pos h1]
    rw [hnil] at hpos
    simp [denomPartition] at hpos
  by_cases h2 : gv = []
  · have hone : (aggregate_multi rows grouping_vars ys cl cmap backend ranges imap).rows
        = [⟨some (mapCountyLabel cmap cl), ⟨none, none, none, none, none, none⟩,
            (rows.map (·.count)).sum, ys, 100⟩] := by
      simp only [aggregate_multi, ← hgv]
      rw [if_neg h0, if_neg h1, if_pos h2]
    rw [hone] at hpos ⊢
    by_cases hd : selDenomK (⟨none, none, none, none, none, none⟩ : GKey) = v
    · have hPone : denomPartition
          [(⟨some (mapCountyLabel cmap cl), ⟨none, none, none, none, none, none⟩,
            (rows.map (·.count)).sum, ys, 100⟩ : OutRow)] v
          = [⟨some (mapCountyLabel cmap cl), ⟨none, none, none, none, none, none⟩,
              (rows.map (·.count)).sum, ys, 100⟩] := by
        simp [denomPartition, hd]
      rw [hPone]
      norm_num
    · have hPnil : denomPartition
          [(⟨some (mapCountyLabel cmap cl), ⟨none, none, none, none, none, none⟩,
            (rows.map (·.count)).sum, ys, 100⟩ : OutRow)] v = [] := by
        simp [denomPartition, hd]
      rw [hPnil] at hpos
      simp at hpos
  have hrows : (aggregate_multi rows grouping_vars ys cl cmap backend ranges imap).rows
      = withPercent
          (if gv.contains "County" then none else some (mapCountyLabel cmap cl)) ys
          ((groupedCounts rows (keyOf gv backend imap ranges)).map
            fun g2 => (relabelRaceG g2.1, g2.2)) := by
    simp only [aggregate_multi, ← hgv]
    rw [if_neg h0, if_neg h1, if_neg h2]
  rw [hrows] at hpos ⊢
  set lbl := if gv.contains "County" then none else some (mapCountyLabel cmap cl)
    with hlbl
  set gR := (groupedCounts rows (keyOf gv backend imap ranges)).map
    fun g2 => (relabelRaceG g2.1, g2.2) with hgR
  have hPmap : denomPartition (withPercent lbl ys gR) v
      = (gR.filter fun x => decide (selDenomK x.1 = v)).map (mkOut lbl ys gR) := by
    unfold denomPartition
    have e0 : withPercent lbl ys gR = gR.map (mkOut lbl ys gR) := rfl
    rw [e0, filter_of_map]
    rfl
  rw [hPmap] at hpos ⊢
  set P := gR.filter fun x => decide (selDenomK x.1 = v) with hP
  have hpos2 : 0 < (P.map (·.2)).sum := by
    have e1 : ((P.map (mkOut lbl ys gR)).map (·.count)).sum = (P.map (·.2)).sum := by
      rw [List.map_map]
      rfl
    rw [e1] at hpos
    exact hpos
  have hper : ∀ x ∈ P, percentOf gR x
      = round1 ((x.2 : ℚ) / (((P.map (·.2)).sum : ℕ) : ℚ) * 100) := by
    intro x hx
    have hxv : selDenomK x.1 = v := of_decide_eq_true (List.mem_filter.mp hx).2
    have hdeq : denOf gR x = (P.map (·.2)).sum := by
      unfold denOf
      rw [hP]
      simp only [hxv]
    unfold percentOf
    rw [hdeq, if_pos hpos2]
  have hlen : ((P.map (mkOut lbl ys gR)).length : ℚ) = ((P.map (·.2)).length : ℚ) := by
    simp
  have hval : ((P.map (mkOut lbl ys gR)).map (·.percent)).sum
      = ((P.map (·.2)).map
          fun c : ℕ => round1 ((c : ℚ) / (((P.map (·.2)).sum : ℕ) : ℚ) * 100)).sum := by
    rw [List.map_map, List.map_map]
    have e2 : ∀ x ∈ P, ((·.percent) ∘ mkOut lbl ys gR) x
        = ((fun c : ℕ => round1 ((c : ℚ) / (((P.map (·.2)).sum : ℕ) : ℚ) * 100))
            ∘ (·.2)) x := by
      intro x hx
      exact hper x hx
    rw [List.map_congr_left e2]
  rw [hval, hlen]
  exact sum_round1_div_bound _ _ hpos2 rfl

/-- Witness for the amended C2: two equal-count race groups; the partition
has two rows, positive total count, and its percents (50.0 and 50.0) sum to
100 within 2 × 0.05. -/
theorem aggregate_multi_percent_partition_sum_witness :
    0 < ((denomPartition
        (aggregate_multi
          [⟨some 31, 1, "R1", "E", "S", 1⟩, ⟨some 31, 1, "R2", "E", "S", 1⟩]
          ["Race"] "2020" "All Counties" [] none [] fun _ => []).rows
        (none, none, none)).map (·.count)).sum
    ∧ |((denomPartition
          (aggregate_multi
            [⟨some 31, 1, "R1", "E", "S", 1⟩, ⟨some 31, 1, "R2", "E", "S", 1⟩]
            ["Race"] "2020" "All Counties" [] none [] fun _ => []).rows
          (none, none, none)).map (·.percent)).sum - 100|
        ≤ ((denomPartition
            (aggregate_multi
              [⟨some 31, 1, "R1", "E", "S", 1⟩, ⟨some 31, 1, "R2", "E", "S", 1⟩]
              ["Race"] "2020" "All Counties" [] none [] fun _ => []).rows
            (none, none, none)).length : ℚ) * (1 / 20) :=
  ⟨by decide,
    aggregate_multi_percent_partition_sum
      [⟨some 31, 1, "R1", "E", "S", 1⟩, ⟨some 31, 1, "R2", "E", "S", 1⟩]
      ["Race"] "2020" "All Counties" [] none [] (fun _ => []) (none, none, none)
      (by decide)⟩

/-- Counterexample input for C2: six race groups with counts
1, 1, 1, 1, 1, 1795 (total 1800). -/
def c2Rows : List Row :=
  [⟨some 31, 1, "R1", "E", "S", 1⟩, ⟨some 31, 1, "R2", "E", "S", 1⟩,
   ⟨some 31, 1, "R3", "E", "S", 1⟩, ⟨some 31, 1, "R4", "E", "S", 1⟩,
   ⟨some 31, 1, "R5", "E", "S", 1⟩, ⟨some 31, 1, "R6", "E", "S", 1795⟩]

/-- The key of one race group of the C2 counterexample. -/
def c2Key (s : String) : GKey := ⟨none, none, none, some (.str s), none, none⟩

/-- The grouped stage of the C2 counterexample run. -/
def c2Grouped : List (GKey × ℕ) :=
  [(c2Key "R1", 1), (c2Key "R2", 1), (c2Key "R3", 1), (c2Key "R4", 1),
   (c2Key "R5", 1), (c2Key "R6", 1795)]

/-- C2 counterexample: grouping `c2Rows` by `Race` produces one denominator
partition (all six rows share the key `(Year)`) with positive total count
whose rounded percents are 0.1 five times and 99.7 once, summing to 100.2 —
outside the claimed 100.0 ± 0.1. -/
theorem aggregate_multi_percent_sum_counterexample :
    0 < ((denomPartition
        (aggregate_multi c2Rows ["Race"] "2020" "All Counties" [] none []
          fun _ => []).rows (none, none, none)).map (·.count)).sum
    ∧ ¬(|((denomPartition
          (aggregate_multi c2Rows ["Race"] "2020" "All Counties" [] none []
            fun _ => []).rows (none, none, none)).map (·.percent)).sum - 100|
        ≤ 1 / 10) := by
  have hrows : (aggregate_multi c2Rows ["Race"] "2020" "All Counties" [] none []
      fun _ => []).rows = withPercent (some "All Counties") "2020" c2Grouped := by
    with_unfolding_all rfl
  have hP : denomPartition (withPercent (some "All Counties") "2020" c2Grouped)
      (none, none, none) = withPercent (some "All Counties") "2020" c2Grouped := by
    with_unfolding_all rfl
  constructor
  · rw [hrows, hP]
    decide
  · rw [hrows, hP]
    have hd1 : denOf c2Grouped (c2Key "R1", 1) = 1800 := by decide
    have hd2 : denOf c2Grouped (c2Key "R2", 1) = 1800 := by decide
    have hd3 : denOf c2Grouped (c2Key "R3", 1) = 1800 := by decide
    have hd4 : denOf c2Grouped (c2Key "R4", 1) = 1800 := by decide
    have hd5 : denOf c2Grouped (c2Key "R5", 1) = 1800 := by decide
    have hd6 : denOf c2Grouped (c2Key "R6", 1795) = 1800 := by decide
    have hsum : ((withPercent (some "All Counties") "2020" c2Grouped).map
        (·.percent)).sum = 501 / 5 := by
      show ([percentOf c2Grouped (c2Key "R1", 1), percentOf c2Grouped (c2Key "R2", 1),
        percentOf c2Grouped (c2Key "R3", 1), percentOf c2Grouped (c2Key "R4", 1),
        percentOf c2Grouped (c2Key "R5", 1),
        percentOf c2Grouped (c2Key "R6", 1795)]).sum = 501 / 5
      simp only [percentOf, hd1, hd2, hd3, hd4, hd5, hd6]
      norm_num [round1]
    rw [hsum]
    rw [show (501 : ℚ) / 5 - 100 = 1 / 5 by norm_num,
      show |(1 : ℚ) / 5| = 1 / 5 from abs_of_nonneg (by norm_num)]
    norm_num

/-! ## Claim C7: shape of the degenerate (empty / zero-total) result -/

/-- Without `County` among the (valid, duplicate-free) requested dimensions,
the `_empty()` column list is a permutation of the non-empty column order
(the sets agree; the order agrees exactly when the dimensions are requested
in the canonical order `Region`, `Age`, `Race`, `Ethnicity`, `Sex`). -/
lemma nonEmptyCols_perm_emptyCols (gv : List String)
    (hval : ∀ g ∈ gv, g = "Age" ∨ g = "Race" ∨ g = "Ethnicity" ∨ g = "Sex"
      ∨ g = "Region")
    (hnd : gv.Nodup) : (nonEmptyCols gv).Perm (emptyCols gv) := by
  set gfields := gv.map (fun g => if g = "Age" then "AgeGroup" else g) with hgf
  have hnotc : gv.contains "County" = false := by
    cases hcc : gv.contains "County"
    · rfl
    · exfalso
      have hmem : "County" ∈ gv := by simpa using hcc
      rcases hval _ hmem with h | h | h | h | h <;> simp at h
  have hsub : ∀ c ∈ gfields,
      c ∈ (["Region", "AgeGroup", "Race", "Ethnicity", "Sex"] : List String) := by
    intro c hc
    obtain ⟨g, hg, rfl⟩ := List.mem_map.mp hc
    rcases hval g hg with h | h | h | h | h <;> subst h <;> simp
  have hnds : gfields.Nodup := by
    refine List.Nodup.map_on ?_ hnd
    intro x hx y hy hxy
    rcases hval x hx with h | h | h | h | h <;>
      rcases hval y hy with h2 | h2 | h2 | h2 | h2 <;> subst h <;> subst h2 <;>
      simp_all
  have hmid : ((["Region", "AgeGroup", "Race", "Ethnicity", "Sex"] : List String).filter
      fun c => gfields.contains c).Perm gfields := by
    refine (List.perm_ext_iff_of_nodup (List.Nodup.filter _ (by decide)) hnds).mpr ?_
    intro a
    constructor
    · intro ha
      have := (List.mem_filter.mp ha).2
      simpa using this
    · intro ha
      exact List.mem_filter.mpr ⟨hsub a ha, by simpa using ha⟩
  have hrest : (gfields.filter fun c =>
      ¬c = "County"
        ∧ ¬((["Region", "AgeGroup", "Race", "Ethnicity", "Sex"] : List String).contains
            c)) = [] := by
    rw [List.filter_eq_nil_iff]
    intro c hc
    simp only [decide_eq_true_eq, not_and, not_not]
    intro _
    simpa using hsub c hc
  simp only [nonEmptyCols, emptyCols, ← hgf, hnotc, Bool.false_eq_true, if_false]
  rw [hrest]
  simp only [List.append_nil]
  exact List.Perm.cons "County"
    (List.Perm.append_right ["Count", "Percent", "Year"] hmid)

/-- The column list of any `aggregate_multi` run (without `County` among the
valid, duplicate-free requested dimensions) is a permutation of the
`_empty()` column list. -/
lemma aggregate_cols_perm (rows : List Row) (grouping_vars : List String)
    (ys cl : String) (cmap : List (String × ℤ)) (backend : Option String)
    (ranges : List (ℕ × ℕ)) (imap : String → List String)
    (hval : ∀ g ∈ grouping_vars.filter (fun g2 => decide (g2 ≠ "All")),
      g = "Age" ∨ g = "Race" ∨ g = "Ethnicity" ∨ g = "Sex" ∨ g = "Region")
    (hnd : (grouping_vars.filter fun g2 => decide (g2 ≠ "All")).Nodup) :
    (aggregate_multi rows grouping_vars ys cl cmap backend ranges imap).cols.Perm
      (emptyCols (grouping_vars.filter fun g2 => decide (g2 ≠ "All"))) := by
  set gv := grouping_vars.filter fun g2 => decide (g2 ≠ "All") with hgv
  by_cases h0 : rows = []
  · have hcols : (aggregate_multi rows grouping_vars ys cl cmap backend ranges
        imap).cols = emptyCols gv := by
      subst h0
      simp only [aggregate_multi, ← hgv]
      simp
    rw [hcols]
  by_cases h1 : (rows.map (·.count)).sum = 0
  · have hcols : (aggregate_multi rows grouping_vars ys cl cmap backend ranges
        imap).cols = emptyCols gv := by
      simp only [aggregate_multi, ← hgv]
      rw [if_neg h0, if_pos h1]
    rw [hcols]
  by_cases h2 : gv = []
  · have hcols : (aggregate_multi rows grouping_vars ys cl cmap backend ranges
        imap).cols = ["County", "Count", "Percent", "Year"] := by
      simp only [aggregate_multi, ← hgv]
      rw [if_neg h0, if_neg h1, if_pos h2]
    rw [hcols, h2]
    exact List.Perm.refl _
  · have hcols : (aggregate_multi rows grouping_vars ys cl cmap backend ranges
        imap).cols = nonEmptyCols gv := by
      simp only [aggregate_multi, ← hgv]
      rw [if_neg h0, if_neg h1, if_neg h2]
    rw [hcols]
    exact nonEmptyCols_perm_emptyCols gv hval hnd

/-- C7 counterexample: with `County` among the requested dimensions, a run on
zero records keeps a single `County` column while a non-empty run expands it
into `County Code` and `County Name` — the claimed column equality fails. -/
theorem aggregate_multi_empty_shape_counterexample :
    (aggregate_multi [] ["County"] "2020" "All Counties" [("Cook", 31)] none []
      fun _ => []).rows = []
    ∧ (aggregate_multi [] ["County"] "2020" "All Counties" [("Cook", 31)] none []
        fun _ => []).cols
      ≠ (aggregate_multi [⟨some 31, 1, "White", "Not Hispanic", "Male", 5⟩]
          ["County"] "2020" "All Counties" [("Cook", 31)] none []
          fun _ => []).cols := by
  constructor <;> decide

/-- C7 (amended): a run of `aggregate_multi` on zero records or on records of
zero total `Count` returns an empty row list, never null and never a division
error, with the same column set (a permutation of the columns; the order also
agrees when the dimensions are requested in the canonical order) as any run —
in particular a non-empty one — with the same requested dimensions, provided
`County` is not among the requested dimensions; when `County` is requested
the shapes genuinely differ: a non-empty run expands `County` into
`County Code`/`County Name` while the empty table keeps one `County`
column. -/
theorem aggregate_multi_empty_shape (rows1 rows2 : List Row)
    (grouping_vars : List String) (ys cl : String) (cmap : List (String × ℤ))
    (backend : Option String) (ranges : List (ℕ × ℕ)) (imap : String → List String)
    (hval : ∀ g ∈ grouping_vars.filter (fun g2 => decide (g2 ≠ "All")),
      g = "Age" ∨ g = "Race" ∨ g = "Ethnicity" ∨ g = "Sex" ∨ g = "Region")
    (hnd : (grouping_vars.filter fun g2 => decide (g2 ≠ "All")).Nodup) :
    ((rows1 = [] ∨ (rows1.map (·.count)).sum = 0) →
      (aggregate_multi rows1 grouping_vars ys cl cmap backend ranges imap).rows = [])
    ∧ (aggregate_multi rows1 grouping_vars ys cl cmap backend ranges imap).cols.Perm
        (aggregate_multi rows2 grouping_vars ys cl cmap backend ranges imap).cols := by
  constructor
  · intro h
    set gv := grouping_vars.filter fun g2 => decide (g2 ≠ "All") with hgv
    by_cases h0 : rows1 = []
    · subst h0
      simp only [aggregate_multi, ← hgv]
      simp
    · have h1 : (rows1.map (·.count)).sum = 0 := h.resolve_left h0
      simp only [aggregate_multi, ← hgv]
      rw [if_neg h0, if_pos h1]
  · exact (aggregate_cols_perm rows1 grouping_vars ys cl cmap backend ranges imap
      hval hnd).trans
      (aggregate_cols_perm rows2 grouping_vars ys cl cmap backend ranges imap
        hval hnd).symm

/-- Witness for the amended C7: an empty run and a one-record run grouped by
`Race` have permutation-equal columns, and the empty run has no rows. -/
theorem aggregate_multi_empty_shape_witness :
    (aggregate_multi [] ["Race"] "2020" "All Counties" [] none []
      fun _ => []).rows = []
    ∧ (aggregate_multi [] ["Race"] "2020" "All Counties" [] none []
        fun _ => []).cols.Perm
      (aggregate_multi [⟨some 31, 1, "White", "Not Hispanic", "Male", 5⟩]
        ["Race"] "2020" "All Counties" [] none [] fun _ => []).cols :=
  ⟨(aggregate_multi_empty_shape []
      [⟨some 31, 1, "White", "Not Hispanic", "Male", 5⟩] ["Race"] "2020"
      "All Counties" [] none [] (fun _ => []) (by decide) (by decide)).1
      (Or.inl rfl),
    (aggregate_multi_empty_shape []
      [⟨some 31, 1, "White", "Not Hispanic", "Male", 5⟩] ["Race"] "2020"
      "All Counties" [] none [] (fun _ => []) (by decide) (by decide)).2⟩

/-! ## Claim C6: pivot weighted percent (`build_pivot_table`, `app.py` lines
383–472) -/

/-- One cell of the pivot in the default weighted percent mode (`app.py`
lines 410–422), at cell granularity: the cell is the multiset of source rows
merged into it — for a margin `"Total"` cell, the union of the cells it
totals, since pandas computes the same `sum` aggregations over the margin
slice.  Each source row carries `(Percent, Count)`; the numerator sums
`Percent * Count / 100` (the `__pct_num` column), the denominator sums
`Count`, and the value is `num / den * 100` with the `0/0` (`NaN`) case
replaced by 0 (`fillna(0)`; with non-negative counts a zero denominator
forces a zero numerator). -/
def pivotPercentCellWeighted (cell : List (ℚ × ℕ)) : ℚ :=
  let num := (cell.map fun pc => pc.1 * (pc.2 : ℚ) / 100).sum
  let den : ℕ := (cell.map (·.2)).sum
  if den = 0 then 0 else num / (den : ℚ) * 100

/-- The final display rounding of percent columns (`app.py` lines 454–458). -/
def pivotPercentCellRounded (cell : List (ℚ × ℕ)) : ℚ :=
  round1 (pivotPercentCellWeighted cell)

lemma sum_map_mul_div100 (cell : List (ℚ × ℕ)) :
    (cell.map fun pc => pc.1 * (pc.2 : ℚ) / 100).sum
      = (cell.map fun pc => pc.1 * (pc.2 : ℚ)).sum / 100 := by
  induction cell with
  | nil => simp
  | cons a t ih =>
    simp only [List.map_cons, List.sum_cons, ih]
    ring

/-- C6: in the pivot builder's default weighted percent mode, every cell's
value with a positive `Count` denominator equals the count-weighted average
(Σ Percent·Count) / (Σ Count) of the source rows merged into the cell —
margin `"Total"` cells are the same computation over the merged slice — and
merging rows (Count=10, Percent=50.0) and (Count=30, Percent=10.0) yields
20.0 (also after the final rounding), not the naive mean 30.0. -/
theorem build_pivot_weighted_percent :
    (∀ cell : List (ℚ × ℕ), (cell.map (·.2)).sum ≠ 0 →
      pivotPercentCellWeighted cell
        = (cell.map fun pc => pc.1 * (pc.2 : ℚ)).sum
          / (((cell.map (·.2)).sum : ℕ) : ℚ))
    ∧ pivotPercentCellRounded [(50, 10), (10, 30)] = 20
    ∧ pivotPercentCellRounded [(50, 10), (10, 30)] ≠ 30 := by
  refine ⟨?_, ?_, ?_⟩
  · intro cell hden
    have hd : (((cell.map (·.2)).sum : ℕ) : ℚ) ≠ 0 := Nat.cast_ne_zero.mpr hden
    simp only [pivotPercentCellWeighted]
    rw [if_neg hden, sum_map_mul_div100]
    field_simp
    ring
  · norm_num [pivotPercentCellRounded, pivotPercentCellWeighted, round1]
  · norm_num [pivotPercentCellRounded, pivotPercentCellWeighted, round1]

/-- Witness for C6: the weighted-percent identity applied to the concrete
two-row cell of the claim. -/
theorem build_pivot_weighted_percent_witness :
    ((([(50, 10), (10, 30)] : List (ℚ × ℕ)).map (·.2)).sum ≠ 0)
    ∧ pivotPercentCellWeighted [(50, 10), (10, 30)]
      = (([(50, 10), (10, 30)] : List (ℚ × ℕ)).map
          fun pc => pc.1 * (pc.2 : ℚ)).sum
        / (((([(50, 10), (10, 30)] : List (ℚ × ℕ)).map (·.2)).sum : ℕ) : ℚ) :=
  ⟨by decide, build_pivot_weighted_percent.1 _ (by decide)⟩

/-! ## Claim C8: pivot row/column overlap -/

/-- The row-dimension list actually used by `build_pivot_table` (`app.py`
line 398): the requested rows filtered to columns present in the data. -/
def pivotRowsUsed (dfCols rows : List String) : List String :=
  rows.filter fun r => dfCols.contains r

/-- The column-dimension list actually used by `build_pivot_table` (`app.py`
line 399) and passed unchanged as the `columns` argument of every underlying
`pd.pivot_table` call: the requested cols filtered to columns present in the
data.  There is no further modification — in particular no removal of
dimensions that also appear among the rows. -/
def pivotColsUsed (dfCols cols : List String) : List String :=
  cols.filter fun c => dfCols.contains c

/-- C8 counterexample: requesting `Race` as both a row and a column dimension
leaves it in both used lists — `build_pivot_table` has no row/column
de-conflict step, so the dimension is handed to the underlying pivot on both
axes instead of being dropped from the columns with a warning. -/
theorem build_pivot_conflict_counterexample :
    pivotRowsUsed ["Race", "Count", "Percent", "Year"] ["Race"] = ["Race"]
    ∧ pivotColsUsed ["Race", "Count", "Percent", "Year"] ["Race"] = ["Race"]
    ∧ pivotColsUsed ["Race", "Count", "Percent", "Year"] ["Race"] ≠ [] := by
  refine ⟨?_, ?_, ?_⟩ <;> decide

/-- C8 (amended): `build_pivot_table` performs no row/column conflict
handling: the row and column lists are each only filtered for presence among
the data columns, so a dimension requested on both axes and present in the
data is retained in both used lists and crossed against itself by the
underlying pivot call; nothing is dropped and no caller warning exists. -/
theorem build_pivot_no_conflict_drop (dfCols rows cols : List String)
    (d : String) (hr : d ∈ rows) (hc : d ∈ cols)
    (hd : dfCols.contains d = true) :
    d ∈ pivotRowsUsed dfCols rows ∧ d ∈ pivotColsUsed dfCols cols :=
  ⟨List.mem_filter.mpr ⟨hr, hd⟩, List.mem_filter.mpr ⟨hc, hd⟩⟩

/-- Witness for the amended C8 at the concrete conflicting request. -/
theorem build_pivot_no_conflict_drop_witness :
    "Race" ∈ pivotRowsUsed ["Race", "Count"] ["Race"]
    ∧ "Race" ∈ pivotColsUsed ["Race", "Count"] ["Race"] :=
  build_pivot_no_conflict_drop ["Race", "Count"] ["Race"] ["Race"] "Race"
    (by decide) (by decide) (by decide)

/-! ## Claim C9: the key synthesizer (`add_concatenated_key_dynamic`,
`app.py` lines 340–378) -/

/-- `sep.join(l)` (Python string join), written structurally so that it
evaluates by kernel reduction (Lean's `String.intercalate` does not). -/
def strJoin (sep : String) (l : List String) : String :=
  match l with
  | [] => ""
  | a :: rest => rest.foldl (fun acc x => acc ++ sep ++ x) a

/-- `str.strip()`: drop whitespace from both ends. -/
def strTrim (s : String) : String :=
  String.mk (((s.data.dropWhile (·.isWhitespace)).reverse.dropWhile
    (·.isWhitespace)).reverse)

/-- ASCII lower-casing of one character (the claim's filter values are
ASCII; Python's `str.lower()` restricted to them). -/
def asciiToLower (c : Char) : Char :=
  match c with
  | 'A' => 'a' | 'B' => 'b' | 'C' => 'c' | 'D' => 'd' | 'E' => 'e' | 'F' => 'f'
  | 'G' => 'g' | 'H' => 'h' | 'I' => 'i' | 'J' => 'j' | 'K' => 'k' | 'L' => 'l'
  | 'M' => 'm' | 'N' => 'n' | 'O' => 'o' | 'P' => 'p' | 'Q' => 'q' | 'R' => 'r'
  | 'S' => 's' | 'T' => 't' | 'U' => 'u' | 'V' => 'v' | 'W' => 'w' | 'X' => 'x'
  | 'Y' => 'y' | 'Z' => 'z'
  | c => c

/-- `str.lower()` on ASCII strings. -/
def strLower (s : String) : String := String.mk (s.data.map asciiToLower)

/-- Whitespace-run collapsing (`re.sub` with a whitespace-class pattern and
replacement `"_"`): a maximal run of whitespace becomes one underscore. -/
def collapseWSAux : List Char → Bool → List Char
  | [], _ => []
  | c :: cs, inRun =>
    if c.isWhitespace then
      if inRun then collapseWSAux cs true else '_' :: collapseWSAux cs true
    else c :: collapseWSAux cs false

/-- `_normalize_token` (`app.py` lines 340–345): trim, en/em dash to `-`,
whitespace runs to `_`, then drop every character outside the class kept by
the Python pattern (digits, ASCII letters, underscore, hyphen — and the
backslash, which the doubled backslash of the non-raw pattern places in the
class). -/
def normalize_token (s : String) : String :=
  let t := strTrim s
  let t2 := t.data.map fun c => if c = '–' ∨ c = '—' then '-' else c
  let t3 := collapseWSAux t2 false
  String.mk (t3.filter fun c =>
    c.isAlphanum || c == '_' || c == '-' || c == '\\')

/-- The `map_ui_to_col` table of `add_concatenated_key_dynamic` (line 354),
with `dict.get(g, g)` fallback. -/
def mapUiToCol (g : String) : String :=
  match g with
  | "Age" => "AgeGroup"
  | "County" => "County Code"
  | _ => g

/-- The key-column list of `add_concatenated_key_dynamic` (lines 350–359):
the county identity columns first (`County Code`+`County Name` when both
present, else `County`), then one column per requested grouping dimension not
already used and not a county column, then `Year` when present. -/
def keyCols (colsPresent groupBy : List String) : List String :=
  let base :=
    if colsPresent.contains "County Code" && colsPresent.contains "County Name" then
      ["County Code", "County Name"]
    else if colsPresent.contains "County" then ["County"]
    else []
  let withGroups := groupBy.foldl
    (fun acc g =>
      let col := mapUiToCol g
      if colsPresent.contains col && !acc.contains col
          && !(col == "County Code" || col == "County Name" || col == "County") then
        acc ++ [col]
      else acc)
    base
  withGroups ++ (if colsPresent.contains "Year" then ["Year"] else [])

/-- The active single-value filters inspected by the prefix-injection loop
(`selected_filters.get` of `race`, `ethnicity`, `sex`, `region`; `none`
models a missing dictionary entry). -/
structure SelFilters where
  race : Option String
  ethnicity : Option String
  sex : Option String
  region : Option String

/-- The meaningfulness test of line 372: the value is truthy (present and
non-empty) and its trimmed, lower-cased form is neither `"all"` nor
`"none"`. -/
def meaningful (v : Option String) : Bool :=
  match v with
  | none => false
  | some s => s ≠ "" && !(strLower (strTrim s) == "all" || strLower (strTrim s) == "none")

/-- The prefix tokens of lines 368–374, in the fixed order `race`,
`ethnicity`, `sex`, `region`: a token is contributed by each filter whose
column is not present in the output and whose value is meaningful; the token
is the normalized value, with the literal prefix `"Region_"` for the region
filter. -/
def prefixTokens (colsPresent : List String) (f : SelFilters) : List String :=
  (if !colsPresent.contains "Race" && meaningful f.race then
    [normalize_token (f.race.getD "")] else [])
  ++ (if !colsPresent.contains "Ethnicity" && meaningful f.ethnicity then
    [normalize_token (f.ethnicity.getD "")] else [])
  ++ (if !colsPresent.contains "Sex" && meaningful f.sex then
    [normalize_token (f.sex.getD "")] else [])
  ++ (if !colsPresent.contains "Region" && meaningful f.region then
    ["Region_" ++ normalize_token (f.region.getD "")] else [])

/-- `add_concatenated_key_dynamic` (lines 347–378), returning the
`ConcatenatedKey` column.  A row is modelled as its string-rendered cell
lookup (the `Int64`-then-`str` cast of numeric columns is part of that
rendering).  The base key joins the normalized key-column values with the
delimiter (an empty column when there are no key columns); when any prefix
token is active, the underscore-joined prefix is prepended to every row's
key, separated by `"_"` exactly when some row has a non-empty base key. -/
def add_concatenated_key_dynamic (colsPresent groupBy : List String)
    (f : SelFilters) (rows : List (String → String)) (delim : String) :
    List String :=
  let kcols := keyCols colsPresent groupBy
  let base := rows.map fun r =>
    if kcols = [] then ""
    else strJoin delim (kcols.map fun c => normalize_token (r c))
  let pts := prefixTokens colsPresent f
  if pts = [] then base
  else
    let pre := strJoin "_" pts
    let sep := if base.any (fun k => decide (k ≠ "")) then "_" else ""
    base.map fun k => pre ++ sep ++ k

lemma string_append_right_cancel (s1 s2 t : String) (h : s1 ++ t = s2 ++ t) :
    s1 = s2 := by
  have hd : s1.data ++ t.data = s2.data ++ t.data := by
    have h2 := congrArg String.data h
    simpa using h2
  have h3 : s1.data = s2.data := by
    exact List.append_cancel_right hd
  cases s1
  cases s2
  exact congrArg String.mk h3

/-- C9 counterexample: the filter values `"White"` and `"White "` are
different meaningful single-value race filters (with `Race` not an output
column), yet normalize to the same token, so the two runs produce identical
`ConcatenatedKey` columns — the claimed distinguishability fails. -/
theorem add_concatenated_key_distinct_counterexample :
    ("White" : String) ≠ "White "
    ∧ meaningful (some "White") = true
    ∧ meaningful (some "White ") = true
    ∧ add_concatenated_key_dynamic ["Year"] [] ⟨some "White", none, none, none⟩
        [fun _ => "2020"] "_"
      = add_concatenated_key_dynamic ["Year"] [] ⟨some "White ", none, none, none⟩
        [fun _ => "2020"] "_" := by
  refine ⟨by decide, by decide, by decide, by decide⟩

/-- C9 (amended): for each of the four filters `Race`, `Ethnicity`, `Sex`,
`Region` that is not an output column and is meaningful, the key synthesizer
prepends its normalized token (underscore-joined, in that fixed order, the
region token carrying the literal prefix `"Region_"`) to every row's
`ConcatenatedKey`; consequently two runs over identical columns and rows
whose joined prefixes differ — in particular, meaningful single-value
filters with different *normalized* values — produce different key columns.
(Two raw filter values that normalize identically, such as `"White"` and
`"White "`, are not distinguished.) -/
theorem add_concatenated_key_prefix_injection (colsPresent groupBy : List String)
    (f1 f2 : SelFilters) (rows : List (String → String)) (delim : String)
    (h1 : prefixTokens colsPresent f1 ≠ [])
    (h2 : prefixTokens colsPresent f2 ≠ [])
    (hne : strJoin "_" (prefixTokens colsPresent f1)
      ≠ strJoin "_" (prefixTokens colsPresent f2))
    (hrows : rows ≠ []) :
    (∀ k ∈ add_concatenated_key_dynamic colsPresent groupBy f1 rows delim,
      ∃ t, k = strJoin "_" (prefixTokens colsPresent f1) ++ t)
    ∧ add_concatenated_key_dynamic colsPresent groupBy f1 rows delim
      ≠ add_concatenated_key_dynamic colsPresent groupBy f2 rows delim := by
  constructor
  · intro k hk
    unfold add_concatenated_key_dynamic at hk
    rw [if_neg h1] at hk
    obtain ⟨b, _hb, rfl⟩ := List.mem_map.mp hk
    exact ⟨_, String.append_assoc _ _ _⟩
  · intro heq
    unfold add_concatenated_key_dynamic at heq
    rw [if_neg h1, if_neg h2] at heq
    cases hr : rows with
    | nil => exact hrows hr
    | cons r rs =>
      rw [hr] at heq
      simp only [List.map_cons, List.cons.injEq] at heq
      exact hne (string_append_right_cancel _ _ _
        (string_append_right_cancel _ _ _ heq.1))

/-- Witness for the amended C9: race filters `"White"` and `"Black"` yield
different key columns on the same one-row input. -/
theorem add_concatenated_key_prefix_injection_witness :
    add_concatenated_key_dynamic ["Year"] [] ⟨some "White", none, none, none⟩
        [fun _ => "2020"] "_"
      ≠ add_concatenated_key_dynamic ["Year"] [] ⟨some "Black", none, none, none⟩
        [fun _ => "2020"] "_" :=
  (add_concatenated_key_prefix_injection ["Year"] []
    ⟨some "White", none, none, none⟩ ⟨some "Black", none, none, none⟩
    [fun _ => "2020"] "_" (by decide) (by decide) (by decide)
    (List.cons_ne_nil _ _)).2

/-! ## Claim C10: the all-pass filter (`backend_filter_apply.py`) -/

/-- One row as seen by `apply_filters`: the `Race`, `Ethnicity`, `Sex` and
`County` columns it inspects. -/
structure FRow where
  county : ℤ
  race : String
  ethnicity : String
  sex : String
deriving DecidableEq

/-- `REVERSE_RACE_MAP.get(selected_race, selected_race)` from
`backend_filter_apply.py`. -/
def reverseRaceMap (s : String) : String :=
  match s with
  | "Two or More Races" => "TOM"
  | "American Indian and Alaska Native" => "AIAN"
  | "Black or African American" => "Black"
  | "White" => "White"
  | "Native Hawaiian and Other Pacific Islander" => "NHOPI"
  | "Asian" => "Asian"
  | _ => s

/-- `apply_filters` from `backend_filter_apply.py` (lines 16–63): the race,
ethnicity, sex, region and county filters applied in sequence with
`List.filter` (which keeps the original row order).  The three region code
lists are imported there from `backend_region_definitions` (a module not
under `src/`), so they are taken as parameters; no region branch fires when
the region filter is `"None"`.  The `None` alternative of the race check
(`not in ["All", None, ""]`) is subsumed by the string model. -/
def apply_filters (df : List FRow) (selected_counties : List String)
    (selected_race selected_ethnicity selected_sex selected_region : String)
    (counties_map : List (String × ℤ))
    (collar urban rural : List ℤ) : List FRow :=
  let df1 := if selected_race ∉ (["All", ""] : List String) then
      df.filter fun r => decide (r.race = reverseRaceMap selected_race)
    else df
  let df2 := if selected_ethnicity = "Hispanic" then
      df1.filter fun r => decide (r.ethnicity = "Hispanic")
    else if selected_ethnicity = "Not Hispanic" then
      df1.filter fun r => decide (r.ethnicity = "Not Hispanic")
    else df1
  let df3 := if selected_sex = "Male" then
      df2.filter fun r => decide (r.sex = "Male")
    else if selected_sex = "Female" then
      df2.filter fun r => decide (r.sex = "Female")
    else df2
  let df4 := if selected_region = "Collar Counties" then
      df3.filter fun r => collar.contains r.county
    else if selected_region = "Urban Counties" then
      df3.filter fun r => urban.contains r.county
    else if selected_region = "Rural Counties" then
      df3.filter fun r => rural.contains r.county
    else df3
  if selected_counties ≠ [] ∧ ¬selected_counties.contains "All" then
    let codes := selected_counties.filterMap fun nm =>
      (counties_map.find? fun p => decide (p.1 = nm)).map (·.2)
    if codes ≠ [] then df4.filter fun r => codes.contains r.county else df4
  else df4

/-- C10: `apply_filters` with race, ethnicity and sex `"All"`, region
`"None"` and a county selection that is empty or contains `"All"` returns the
input rows unchanged and in their original order: every filter branch is
skipped, so the all-pass filter is the identity on the record list. -/
theorem apply_filters_all_pass (df : List FRow) (selected_counties : List String)
    (counties_map : List (String × ℤ)) (collar urban rural : List ℤ)
    (hc : selected_counties = [] ∨ selected_counties.contains "All" = true) :
    apply_filters df selected_counties "All" "All" "All" "None" counties_map
      collar urban rural = df := by
  have hcond : ¬(selected_counties ≠ [] ∧ ¬selected_counties.contains "All" = true) := by
    rcases hc with h | h
    · exact fun hh => hh.1 h
    · exact fun hh => hh.2 h
  simp only [apply_filters]
  rw [if_neg hcond, if_neg (by decide), if_neg (by decide), if_neg (by decide),
    if_neg (by decide), if_neg (by decide), if_neg (by decide), if_neg (by decide),
    if_neg (by decide)]

/-- Witness for C10 on a concrete one-row input with county selection
`["All"]`. -/
theorem apply_filters_all_pass_witness :
    apply_filters [⟨31, "White", "Hispanic", "Male"⟩] ["All"] "All" "All" "All"
      "None" [] [] [] [] = [⟨31, "White", "Hispanic", "Male"⟩] :=
  apply_filters_all_pass _ _ _ _ _ _ (Or.inr (by decide))

end PopForm
